import Mathlib

/-!
Shallow embedding of the FastAPI QR-signing service (src/app.py) and proofs
about its spec. Coordinates are modelled as rationals; the PyMuPDF document
is a list of pages, each carrying its rectangle, a text-search oracle and the
list of drawing operations performed on it; fallible code returns Except.
-/

namespace FastapiQr

/-- A rectangle as in fitz.Rect: (x0, y0) top-left, (x1, y1) bottom-right. -/
structure Rect where
  x0 : ℚ
  y0 : ℚ
  x1 : ℚ
  y1 : ℚ
deriving DecidableEq

/-- fitz.Rect.width -/
def Rect.width (r : Rect) : ℚ := r.x1 - r.x0

/-- fitz.Rect.height -/
def Rect.height (r : Rect) : ℚ := r.y1 - r.y0

/-- An RGB color triple as passed to page.draw_rect / insert_text. -/
structure Color where
  r : ℚ
  g : ℚ
  b : ℚ
deriving DecidableEq

def white : Color := ⟨1, 1, 1⟩

def gray : Color := ⟨8/10, 8/10, 8/10⟩

/-- qrcode error-correction constants (qrcode.constants.ERROR_CORRECT_*). -/
inductive ErrorCorrection
  | L
  | M
  | Q
  | H
deriving DecidableEq

/-- The QR bitmap: the parameters of qrcode.QRCode together with the payload
added to it, which determine the rendered raster image. -/
structure QRImage where
  version : Nat
  errorCorrection : ErrorCorrection
  boxSize : Nat
  border : Nat
  data : String
deriving DecidableEq

/-- Lines 120-133 of app.py: qrcode.QRCode(version=1,
error_correction=ERROR_CORRECT_H, box_size=10, border=1) with qr_data added,
rendered black on white. The resulting bitmap is a function of qr_data only. -/
def makeQrImage (qrData : String) : QRImage :=
  { version := 1, errorCorrection := .H, boxSize := 10, border := 1, data := qrData }

/-- One drawing operation applied to a page by the compositor: page.draw_rect,
page.insert_image, or page.insert_text (with optional fontname and color). -/
inductive DrawOp
  | drawRect (r : Rect) (color fill : Color)
  | insertImage (r : Rect) (img : QRImage)
  | insertText (pt : ℚ × ℚ) (text : String) (fontsize : ℚ)
      (fontname : Option String) (color : Option Color)
deriving DecidableEq

/-- A PDF page: its rectangle (page.rect), the text-search oracle modelling
page.search_for (the list of hit rectangles for a marker string, in the order
the library reports them), and the drawing operations recorded on the page. -/
structure Page where
  rect : Rect
  searchFor : String → List Rect
  ops : List DrawOp

/-- A parsed PDF document is its list of pages. -/
abbrev Document := List Page

/-- Pydantic model SignPosition (app.py lines 28-33): x, y, page with
Optional width and height defaulting to 100. -/
structure SignPosition where
  x : ℚ
  y : ℚ
  page : Nat
  width : Option ℚ := some 100
  height : Option ℚ := some 100
deriving DecidableEq

/-- The loop body of find_marker_positions (lines 97-110): iterate over the
pages with their indices, and for each hit rectangle of page.search_for emit
a SignPosition with the rectangle's top-left corner and size. -/
def findMarkerAux (marker : String) (pageNum : Nat) : Document → List SignPosition
  | [] => []
  | pg :: rest =>
      (pg.searchFor marker).map (fun rect =>
        { x := rect.x0, y := rect.y0, page := pageNum,
          width := some rect.width, height := some rect.height })
      ++ findMarkerAux marker (pageNum + 1) rest

/-- find_marker_positions (app.py lines 89-112). -/
def findMarkerPositions (doc : Document) (marker : String) : List SignPosition :=
  findMarkerAux marker 0 doc

/-- The number of exact textual occurrences of the marker in the document:
the total number of hits page.search_for reports across all pages. -/
def totalOccurrences (doc : Document) (marker : String) : Nat :=
  (doc.map (fun p => (p.searchFor marker).length)).sum

/-- A position supplied as a JSON mapping (the dict branch of the compositor,
lines 145-151): every key may be absent. -/
structure PosDict where
  x : Option ℚ := none
  y : Option ℚ := none
  page : Option Nat := none
  width : Option ℚ := none
  height : Option ℚ := none
deriving DecidableEq

/-- A position as the compositor receives it: either a SignPosition object
(hasattr(pos, "page") holds) or a loose mapping. -/
inductive PosInput
  | obj (p : SignPosition)
  | dict (d : PosDict)

/-- The fields the compositor extracts from one position. For the object
branch, getattr(pos, "width", 120) returns the attribute itself, which is
Optional in the model, so a None value would flow into the arithmetic
(a TypeError in Python); for the dict branch, pos.get defaults are used. -/
structure ResolvedPos where
  pageNum : Nat
  x : ℚ
  y : ℚ
  width : Option ℚ
  height : Option ℚ

/-- Field extraction of add_qr_to_pdf, lines 136-151. -/
def resolvePos : PosInput → ResolvedPos
  | .obj p => ⟨p.page, p.x, p.y, p.width, p.height⟩
  | .dict d => ⟨d.page.getD 0, d.x.getD 50, d.y.getD 50,
      some (d.width.getD 120), some (d.height.getD 120)⟩

/-- qr_size (line 163). -/
def qrSize : ℚ := 60

/-- Horizontal placement with clamping, lines 167 and 171. -/
def adjustedX (x pageWidth : ℚ) : ℚ :=
  let ax := min (x + 10) (pageWidth - qrSize - 10)
  max 10 (min ax (pageWidth - qrSize - 10))

/-- Vertical placement with clamping, lines 168 and 172: 30 units above the
marker, clamped to leave a 40-unit band below the QR box. -/
def adjustedY (y pageHeight : ℚ) : ℚ :=
  max 10 (min (y - 30) (pageHeight - qrSize - 40))

/-- The QR box drawn at the clamped placement. -/
def qrBoxRect (ax ay : ℚ) : Rect := ⟨ax, ay, ax + qrSize, ay + qrSize⟩

/-- The shadow rectangle of line 177: fitz.Rect(adjusted_x-2, adjusted_y-2,
adjusted_x + qr_size + 4, adjusted_y + qr_size + 4). -/
def shadowRect (ax ay : ℚ) : Rect := ⟨ax - 2, ay - 2, ax + qrSize + 4, ay + qrSize + 4⟩

/-- Python truthiness of the certificate_id argument (line 196): None and the
empty string are falsy. -/
def certTruthy : Option String → Bool
  | none => false
  | some s => !s.isEmpty

/-- The two insert_text operations of lines 198-214. -/
def certOps (ax ay : ℚ) (cert : Option String) : List DrawOp :=
  if certTruthy cert then
    [ .insertText (ax, ay + qrSize + 2) "Verified Document" 7
        (some "Helvetica-Bold") (some ⟨0, 0, 7/10⟩),
      .insertText (ax, ay + qrSize + 2 + 10) ((cert.getD "")) 6 none none ]
  else []

/-- The drawing operations one loop iteration performs on the target page
(lines 153-214): erase the marker with a white rectangle, draw the gray
shadow, the white background, the QR image, then the certificate text. -/
def posOps (img : QRImage) (x y w h pageWidth pageHeight : ℚ)
    (cert : Option String) : List DrawOp :=
  let ax := adjustedX x pageWidth
  let ay := adjustedY y pageHeight
  [ .drawRect ⟨x, y, x + w, y + h⟩ white white,
    .drawRect (shadowRect ax ay) gray gray,
    .drawRect (qrBoxRect ax ay) white white,
    .insertImage (qrBoxRect ax ay) img ]
  ++ certOps ax ay cert

/-- A page with further drawing operations appended to it. -/
def appendOps (pg : Page) (newOps : List DrawOp) : Page :=
  { pg with ops := pg.ops ++ newOps }

/-- One iteration of the positions loop of add_qr_to_pdf: resolve the fields,
index the page (IndexError when out of range), and append the drawing
operations; a None width or height would make the arithmetic of line 155
fail. -/
def stepPos (img : QRImage) (cert : Option String) (doc : Document)
    (pos : PosInput) : Except String Document :=
  if hpg : (resolvePos pos).pageNum < doc.length then
    match (resolvePos pos).width, (resolvePos pos).height with
    | some w, some h =>
        let page := doc.get ⟨(resolvePos pos).pageNum, hpg⟩
        .ok (doc.set (resolvePos pos).pageNum
          (appendOps page (posOps img (resolvePos pos).x (resolvePos pos).y w h
            page.rect.width page.rect.height cert)))
    | _, _ => .error "TypeError"
  else .error "IndexError"

/-- add_qr_to_pdf (app.py lines 114-221): generate the QR bitmap once from
qr_data, then apply each position in order; doc.save re-serializes the pages
unchanged. -/
def addQrToPdf (doc : Document) (positions : List PosInput) (qrData : String)
    (certificateId : Option String) : Except String Document :=
  positions.foldlM (stepPos (makeQrImage qrData) certificateId) doc

/-- An HTTP response of the service, as far as the claims are concerned. -/
inductive Response
  | okJson (positions : List SignPosition)
  | pdf (doc : Document) (filename : String)
  | jsonError (status : Nat) (error : String)
  | httpError (status : Nat) (detail : String)

/-- detect_sign_positions (lines 35-50) on a successfully parsed document:
return the located positions as JSON. -/
def detectSignPositions (doc : Document) (marker : String) : Response :=
  .okJson (findMarkerPositions doc marker)

/-- detect_and_add_qr (lines 223-259) on a successfully parsed document:
locate the marker, answer 404 with a structured body when nothing is found,
otherwise composite and return the modified PDF. -/
def detectAndAddQr (doc : Document) (marker qrData : String)
    (certificateId : Option String) (filename : String) : Response :=
  let positions := findMarkerPositions doc marker
  if positions.isEmpty then
    .jsonError 404 ("No marker \x27" ++ marker ++ "\x27 found in the document")
  else
    match addQrToPdf doc (positions.map .obj) qrData certificateId with
    | .ok d => .pdf d ("signed_" ++ filename)
    | .error e => .httpError 500 ("Error processing PDF: " ++ e)

/-- The clamp the spec describes for the case without certificate text: the
QR box alone is kept within [10, pageWidth-10] x [10, pageHeight-10], with no
extra margin reserved below it. Stated from the spec wording for comparison
with the clamp of the source, adjustedY. -/
def specAdjustedYNoCert (y pageHeight : ℚ) : ℚ :=
  max 10 (min (y - 30) (pageHeight - qrSize - 10))

/-- The shadow rectangle the spec describes: 2 units larger than the QR box
on each side. Stated from the spec wording for comparison with shadowRect,
the rectangle the source draws. -/
def specShadowRect (ax ay : ℚ) : Rect :=
  ⟨ax - 2, ay - 2, ax + qrSize + 2, ay + qrSize + 2⟩

/-- The QR image an operation inserts, if any. -/
def imageOf : DrawOp → Option QRImage
  | .drawRect _ _ _ => none
  | .insertImage _ i => some i
  | .insertText _ _ _ _ _ => none

/-- The QR images inserted by a list of operations. -/
def opImages (ops : List DrawOp) : List QRImage :=
  ops.filterMap imageOf

/-- All QR images inserted on the pages of a document. -/
def docImages : Document → List QRImage
  | [] => []
  | pg :: rest => opImages pg.ops ++ docImages rest

/-! ## Sample concrete documents used by the witnesses -/

def sampleRect1 : Rect := ⟨50, 50, 150, 70⟩

def sampleRect2 : Rect := ⟨30, 40, 130, 60⟩

def samplePageA : Page :=
  ⟨⟨0, 0, 595, 842⟩, fun m => if m = "[[SIGN_HERE]]" then [sampleRect1] else [], []⟩

def samplePageB : Page :=
  ⟨⟨0, 0, 595, 842⟩, fun m => if m = "[[SIGN_HERE]]" then [sampleRect2, sampleRect1] else [], []⟩

def sampleDoc : Document := [samplePageA, samplePageB]

def wPositions : List PosInput :=
  [.dict { page := some 1 }, .obj { x := 50, y := 50, page := 0 }]

def wDoc2 : Document :=
  match addQrToPdf sampleDoc wPositions "payload" none with
  | .ok d => d
  | .error _ => []

/-! ## Lemmas about the Marker Locator -/

theorem findMarkerAux_length (marker : String) (n : Nat) (doc : Document) :
    (findMarkerAux marker n doc).length
      = (doc.map (fun p => (p.searchFor marker).length)).sum := by
  induction doc generalizing n with
  | nil => rfl
  | cons pg rest ih => simp [findMarkerAux, ih]

theorem findMarkerAux_mem (marker : String) (n : Nat) (doc : Document)
    (p : SignPosition) (hp : p ∈ findMarkerAux marker n doc) :
    n ≤ p.page ∧ p.page < n + doc.length ∧ p.width.isSome ∧ p.height.isSome := by
  induction doc generalizing n with
  | nil => simp [findMarkerAux] at hp
  | cons pg rest ih =>
    rw [findMarkerAux, List.mem_append] at hp
    rcases hp with hp | hp
    · rcases List.mem_map.mp hp with ⟨rect, _, rfl⟩
      refine ⟨le_refl _, ?_, rfl, rfl⟩
      show n < n + (pg :: rest).length
      simp only [List.length_cons]
      omega
    · rcases ih (n + 1) hp with ⟨h1, h2, h3, h4⟩
      refine ⟨by omega, ?_, h3, h4⟩
      simp only [List.length_cons]
      omega

theorem findMarkerAux_pairwise (marker : String) (n : Nat) (doc : Document) :
    (findMarkerAux marker n doc).Pairwise (fun a b => a.page ≤ b.page) := by
  induction doc generalizing n with
  | nil => simp [findMarkerAux]
  | cons pg rest ih =>
    rw [findMarkerAux]
    refine List.pairwise_append.mpr ⟨?_, ih (n + 1), ?_⟩
    · refine List.pairwise_map.mpr ?_
      exact List.pairwise_of_forall (fun _ _ => le_refl n)
    · intro a ha b hb
      rcases List.mem_map.mp ha with ⟨rect, _, rfl⟩
      have hb1 := (findMarkerAux_mem marker (n + 1) rest b hb).1
      show n ≤ b.page
      omega

theorem findMarkerAux_filter (marker : String) (n j : Nat) (doc : Document)
    (hj : j < doc.length) :
    (findMarkerAux marker n doc).filter (fun p => p.page == n + j)
      = ((doc.get ⟨j, hj⟩).searchFor marker).map (fun rect =>
          { x := rect.x0, y := rect.y0, page := n + j,
            width := some rect.width, height := some rect.height }) := by
  induction doc generalizing n j with
  | nil => simp at hj
  | cons pg rest ih =>
    rw [findMarkerAux, List.filter_append]
    cases j with
    | zero =>
      have h1 : (List.filter (fun p => p.page == n + 0)
          (findMarkerAux marker (n + 1) rest)) = [] := by
        refine List.filter_eq_nil_iff.mpr ?_
        intro a ha
        have := (findMarkerAux_mem marker (n + 1) rest a ha).1
        simp only [beq_iff_eq]
        omega
      have h2 : (List.filter (fun p => p.page == n + 0)
          (List.map (fun rect =>
            ({ x := rect.x0, y := rect.y0, page := n,
               width := some rect.width, height := some rect.height } : SignPosition))
            (pg.searchFor marker)))
          = List.map (fun rect =>
            ({ x := rect.x0, y := rect.y0, page := n,
               width := some rect.width, height := some rect.height } : SignPosition))
            (pg.searchFor marker) := by
        refine List.filter_eq_self.mpr ?_
        intro a ha
        rcases List.mem_map.mp ha with ⟨rect, _, rfl⟩
        simp
      rw [h1, List.append_nil, h2]
      rfl
    | succ j2 =>
      have h1 : (List.filter (fun p => p.page == n + (j2 + 1))
          (List.map (fun rect =>
            ({ x := rect.x0, y := rect.y0, page := n,
               width := some rect.width, height := some rect.height } : SignPosition))
            (pg.searchFor marker))) = [] := by
        refine List.filter_eq_nil_iff.mpr ?_
        intro a ha
        rcases List.mem_map.mp ha with ⟨rect, _, rfl⟩
        simp only [beq_iff_eq]
        omega
      rw [h1, List.nil_append]
      have hj2 : j2 < rest.length := by
        simp only [List.length_cons] at hj
        omega
      have := ih (n + 1) j2 hj2
      have harith : n + (j2 + 1) = n + 1 + j2 := by omega
      rw [harith]
      exact this

/-- C1: for a document with N exact occurrences of the marker,
find_marker_positions returns exactly N SignPosition records, in page order
and, within a page, in the order page.search_for reports the matches (the
records with page = j are exactly the mapped hits of page j), and every
record's page field is a zero-based index below the page count. -/
theorem locator_returns_all_occurrences_in_order (doc : Document) (marker : String) :
    (findMarkerPositions doc marker).length = totalOccurrences doc marker
    ∧ (∀ p ∈ findMarkerPositions doc marker, p.page < doc.length)
    ∧ (findMarkerPositions doc marker).Pairwise (fun a b => a.page ≤ b.page)
    ∧ ∀ j, (hj : j < doc.length) →
        (findMarkerPositions doc marker).filter (fun p => p.page == j)
          = ((doc.get ⟨j, hj⟩).searchFor marker).map (fun rect =>
              { x := rect.x0, y := rect.y0, page := j,
                width := some rect.width, height := some rect.height }) := by
  refine ⟨findMarkerAux_length marker 0 doc, ?_, findMarkerAux_pairwise marker 0 doc, ?_⟩
  · intro p hp
    have := (findMarkerAux_mem marker 0 doc p hp).2.1
    omega
  · intro j hj
    have := findMarkerAux_filter marker 0 j doc hj
    simpa using this

/-- C9: a document with zero occurrences of the marker makes the Locator
return the empty list and the detect-sign-positions endpoint answer
successfully with an empty positions array, not an error. -/
theorem locator_zero_occurrences_empty (doc : Document) (marker : String)
    (h : totalOccurrences doc marker = 0) :
    findMarkerPositions doc marker = []
    ∧ detectSignPositions doc marker = .okJson [] := by
  have hlen : (findMarkerPositions doc marker).length = 0 := by
    show (findMarkerAux marker 0 doc).length = 0
    rw [findMarkerAux_length marker 0 doc]
    exact h
  have hnil : findMarkerPositions doc marker = [] :=
    List.eq_nil_of_length_eq_zero hlen
  exact ⟨hnil, by rw [detectSignPositions, hnil]⟩

theorem locator_zero_occurrences_empty_witness :
    findMarkerPositions sampleDoc "[[OTHER]]" = []
    ∧ detectSignPositions sampleDoc "[[OTHER]]" = .okJson [] :=
  locator_zero_occurrences_empty sampleDoc "[[OTHER]]" (by decide)

/-! ## Lemmas about one compositor step -/

theorem stepPos_eq_of_valid (img : QRImage) (cert : Option String)
    (doc : Document) (pos : PosInput) (w h : ℚ)
    (hpg : (resolvePos pos).pageNum < doc.length)
    (hw : (resolvePos pos).width = some w)
    (hh : (resolvePos pos).height = some h) :
    stepPos img cert doc pos = .ok (doc.set (resolvePos pos).pageNum
      (appendOps (doc.get ⟨(resolvePos pos).pageNum, hpg⟩)
        (posOps img (resolvePos pos).x (resolvePos pos).y w h
          (doc.get ⟨(resolvePos pos).pageNum, hpg⟩).rect.width
          (doc.get ⟨(resolvePos pos).pageNum, hpg⟩).rect.height cert))) := by
  unfold stepPos
  rw [dif_pos hpg, hw, hh]

/-! ## The placement clamp -/

/-- C2: on any page at least 80 units wide and 120 units tall, the clamped QR
box lies within [10, page_width-10] horizontally and [10, page_height-10]
vertically, whatever the requested position; and the compositor step never
fails because of an out-of-bounds placement: for a mapping position whose
page index is in range it always succeeds, for arbitrary x and y. -/
theorem clamp_keeps_qr_box_in_bounds (x y pageWidth pageHeight : ℚ)
    (hw : 80 ≤ pageWidth) (hh : 120 ≤ pageHeight) :
    (10 ≤ adjustedX x pageWidth
     ∧ adjustedX x pageWidth + qrSize ≤ pageWidth - 10
     ∧ 10 ≤ adjustedY y pageHeight
     ∧ adjustedY y pageHeight + qrSize ≤ pageHeight - 10)
    ∧ ∀ (img : QRImage) (cert : Option String) (doc : Document) (d : PosDict),
        (resolvePos (.dict d)).pageNum < doc.length →
        ∃ doc2, stepPos img cert doc (.dict d) = .ok doc2 := by
  constructor
  · refine ⟨le_max_left _ _, ?_, le_max_left _ _, ?_⟩
    · have h1 : adjustedX x pageWidth ≤ pageWidth - qrSize - 10 := by
        rw [adjustedX]
        exact max_le (by rw [qrSize]; linarith) (min_le_right _ _)
      rw [qrSize] at h1 ⊢
      linarith
    · have h1 : adjustedY y pageHeight ≤ pageHeight - qrSize - 40 := by
        rw [adjustedY]
        exact max_le (by rw [qrSize]; linarith) (min_le_right _ _)
      rw [qrSize] at h1 ⊢
      linarith
  · intro img cert doc d hpg
    exact ⟨_, stepPos_eq_of_valid img cert doc (.dict d) _ _ hpg rfl rfl⟩

theorem clamp_keeps_qr_box_in_bounds_witness :
    (10 ≤ adjustedX 100000 80
     ∧ adjustedX 100000 80 + qrSize ≤ 80 - 10
     ∧ 10 ≤ adjustedY (-500) 120
     ∧ adjustedY (-500) 120 + qrSize ≤ 120 - 10)
    ∧ ∃ doc2, stepPos (makeQrImage "data") none sampleDoc
        (.dict { x := some 100000, y := some (-500) }) = .ok doc2 :=
  ⟨(clamp_keeps_qr_box_in_bounds 100000 (-500) 80 120 (by norm_num) (by norm_num)).1,
   (clamp_keeps_qr_box_in_bounds 100000 (-500) 80 120 (by norm_num) (by norm_num)).2
     (makeQrImage "data") none sampleDoc { x := some 100000, y := some (-500) } (by decide)⟩

/-- C3 amended: the 40-unit vertical margin for the certificate text lines is
reserved by the clamp unconditionally, whether or not a certificate id is
supplied: the placement computed by the compositor does not depend on the
certificate argument at all, and on any page at least 110 units tall the QR
box plus the 40-unit text band below it stays within the page height. -/
theorem cert_margin_amended (y pageHeight : ℚ) (hh : 110 ≤ pageHeight) :
    (∀ (img : QRImage) (x w h pw : ℚ) (cert1 cert2 : Option String),
        (posOps img x y w h pw pageHeight cert1).take 4
          = (posOps img x y w h pw pageHeight cert2).take 4)
    ∧ 10 ≤ adjustedY y pageHeight
    ∧ adjustedY y pageHeight + qrSize + 40 ≤ pageHeight := by
  refine ⟨?_, le_max_left _ _, ?_⟩
  · intro img x w h pw cert1 cert2
    rfl
  · have h1 : adjustedY y pageHeight ≤ pageHeight - qrSize - 40 := by
      rw [adjustedY]
      exact max_le (by rw [qrSize]; linarith) (min_le_right _ _)
    rw [qrSize] at h1 ⊢
    linarith

theorem cert_margin_amended_witness :
    ((posOps (makeQrImage "d") 50 200 100 100 300 200 (some "CERT-123")).take 4
       = (posOps (makeQrImage "d") 50 200 100 100 300 200 none).take 4)
    ∧ 10 ≤ adjustedY 200 200
    ∧ adjustedY 200 200 + qrSize + 40 ≤ 200 :=
  ⟨(cert_margin_amended 200 200 (by norm_num)).1 (makeQrImage "d") 50 100 100 300
      (some "CERT-123") none,
   (cert_margin_amended 200 200 (by norm_num)).2.1,
   (cert_margin_amended 200 200 (by norm_num)).2.2⟩

/-- C4 amended: for each position the compositor draws, in back-to-front
order, the gray shadow rectangle, then the white background rectangle exactly
matching the QR box, then the QR bitmap over the same box; the shadow extends
2 units beyond the QR box on the left and top but 4 units beyond on the right
and bottom. -/
theorem shadow_then_background_then_image (img : QRImage)
    (x y w h pw ph : ℚ) (cert : Option String) :
    (posOps img x y w h pw ph cert).take 4
      = [ .drawRect ⟨x, y, x + w, y + h⟩ white white,
          .drawRect (shadowRect (adjustedX x pw) (adjustedY y ph)) gray gray,
          .drawRect (qrBoxRect (adjustedX x pw) (adjustedY y ph)) white white,
          .insertImage (qrBoxRect (adjustedX x pw) (adjustedY y ph)) img ]
    ∧ ∀ ax ay : ℚ,
        (shadowRect ax ay).x0 = (qrBoxRect ax ay).x0 - 2
        ∧ (shadowRect ax ay).y0 = (qrBoxRect ax ay).y0 - 2
        ∧ (shadowRect ax ay).x1 = (qrBoxRect ax ay).x1 + 4
        ∧ (shadowRect ax ay).y1 = (qrBoxRect ax ay).y1 + 4 := by
  refine ⟨rfl, ?_⟩
  intro ax ay
  exact ⟨rfl, rfl, rfl, rfl⟩

/-- C5: a mapping position with no width or height key gets the defaults 120
and 120 in the compositor, while the SignPosition model itself declares the
defaults 100 and 100 for its optional width and height fields. -/
theorem size_defaults_120_compositor_100_model :
    (∀ d : PosDict, d.width = none → (resolvePos (.dict d)).width = some 120)
    ∧ (∀ d : PosDict, d.height = none → (resolvePos (.dict d)).height = some 120)
    ∧ ∀ (x y : ℚ) (p : Nat),
        ({ x := x, y := y, page := p } : SignPosition).width = some 100
        ∧ ({ x := x, y := y, page := p } : SignPosition).height = some 100 := by
  refine ⟨?_, ?_, ?_⟩
  · intro d hd
    show some (d.width.getD 120) = some 120
    rw [hd]
    rfl
  · intro d hd
    show some (d.height.getD 120) = some 120
    rw [hd]
    rfl
  · intro x y p
    exact ⟨rfl, rfl⟩

theorem size_defaults_120_compositor_100_model_witness :
    (resolvePos (.dict {})).width = some 120
    ∧ (resolvePos (.dict {})).height = some 120
    ∧ ({ x := 0, y := 0, page := 0 } : SignPosition).width = some 100
    ∧ ({ x := 0, y := 0, page := 0 } : SignPosition).height = some 100 :=
  ⟨size_defaults_120_compositor_100_model.1 {} rfl,
   size_defaults_120_compositor_100_model.2.1 {} rfl,
   (size_defaults_120_compositor_100_model.2.2 0 0 0).1,
   (size_defaults_120_compositor_100_model.2.2 0 0 0).2⟩

/-- C10: an empty mapping position resolves to page 0, x = 50, y = 50 with
the 120 by 120 default size, and on any document with at least one page the
compositor accepts it and composites onto page 0 rather than rejecting it. -/
theorem empty_mapping_defaults (doc : Document) (hdoc : 0 < doc.length)
    (qrData : String) (cert : Option String) :
    resolvePos (.dict {}) = ⟨0, 50, 50, some 120, some 120⟩
    ∧ addQrToPdf doc [.dict {}] qrData cert
        = .ok (doc.set 0 (appendOps (doc.get ⟨0, hdoc⟩)
            (posOps (makeQrImage qrData) 50 50 120 120
              (doc.get ⟨0, hdoc⟩).rect.width (doc.get ⟨0, hdoc⟩).rect.height cert))) := by
  refine ⟨rfl, ?_⟩
  show List.foldlM (stepPos (makeQrImage qrData) cert) doc [.dict {}] = _
  rw [List.foldlM_cons]
  rw [stepPos_eq_of_valid (makeQrImage qrData) cert doc (.dict {}) 120 120 hdoc rfl rfl]
  rfl

theorem empty_mapping_defaults_witness :
    resolvePos (.dict {}) = ⟨0, 50, 50, some 120, some 120⟩
    ∧ addQrToPdf sampleDoc [.dict {}] "payload" none
        = .ok (sampleDoc.set 0 (appendOps (sampleDoc.get ⟨0, by decide⟩)
            (posOps (makeQrImage "payload") 50 50 120 120
              (sampleDoc.get ⟨0, by decide⟩).rect.width
              (sampleDoc.get ⟨0, by decide⟩).rect.height none))) :=
  empty_mapping_defaults sampleDoc (by decide) "payload" none

/-! ## Images drawn on a document -/

theorem mem_docImages (q : QRImage) :
    ∀ doc : Document, q ∈ docImages doc ↔ ∃ pg ∈ doc, q ∈ opImages pg.ops := by
  intro doc
  induction doc with
  | nil => simp [docImages]
  | cons pg rest ih =>
    rw [docImages, List.mem_append, ih]
    constructor
    · rintro (hq | ⟨pg2, hpg2, hq⟩)
      · exact ⟨pg, List.mem_cons_self _ _, hq⟩
      · exact ⟨pg2, List.mem_cons_of_mem _ hpg2, hq⟩
    · rintro ⟨pg2, hpg2, hq⟩
      rcases List.mem_cons.mp hpg2 with rfl | hpg2
      · exact Or.inl hq
      · exact Or.inr ⟨pg2, hpg2, hq⟩

theorem opImages_append (l1 l2 : List DrawOp) :
    opImages (l1 ++ l2) = opImages l1 ++ opImages l2 :=
  List.filterMap_append l1 l2 imageOf

theorem opImages_certOps (ax ay : ℚ) (cert : Option String) :
    opImages (certOps ax ay cert) = [] := by
  rw [certOps]
  by_cases hc : certTruthy cert
  · rw [if_pos hc]
    rfl
  · rw [if_neg hc]
    rfl

theorem opImages_posOps (img : QRImage) (x y w h pw ph : ℚ) (cert : Option String) :
    opImages (posOps img x y w h pw ph cert) = [img] := by
  rw [posOps]
  show opImages ([_, _, _, _] ++ certOps _ _ cert) = [img]
  rw [opImages_append, opImages_certOps, List.append_nil]
  rfl

/-! ## What a successful compositor step preserves -/

theorem stepPos_ok_elim (img : QRImage) (cert : Option String)
    (doc doc2 : Document) (pos : PosInput)
    (h : stepPos img cert doc pos = .ok doc2) :
    doc2.length = doc.length
    ∧ (∀ i (h1 : i < doc.length) (h2 : i < doc2.length),
        (doc2.get ⟨i, h2⟩).rect = (doc.get ⟨i, h1⟩).rect)
    ∧ ∀ q ∈ docImages doc2, q ∈ docImages doc ∨ q = img := by
  unfold stepPos at h
  split at h
  case isTrue hpg =>
    split at h
    case h_1 w hgt hw hh =>
      injection h with h
      subst h
      refine ⟨List.length_set _ _ _, ?_, ?_⟩
      · intro i h1 h2
        simp only [List.get_eq_getElem, List.getElem_set]
        split
        case isTrue heq =>
          subst heq
          rfl
        case isFalse heq =>
          rfl
      · intro q hq
        rcases (mem_docImages q _).mp hq with ⟨pg2, hpg2, hq2⟩
        rcases List.mem_or_eq_of_mem_set hpg2 with hpg2 | rfl
        · exact Or.inl ((mem_docImages q doc).mpr ⟨pg2, hpg2, hq2⟩)
        · rw [show (appendOps (doc.get ⟨(resolvePos pos).pageNum, hpg⟩)
              (posOps img (resolvePos pos).x (resolvePos pos).y w hgt
                (doc.get ⟨(resolvePos pos).pageNum, hpg⟩).rect.width
                (doc.get ⟨(resolvePos pos).pageNum, hpg⟩).rect.height cert)).ops
              = (doc.get ⟨(resolvePos pos).pageNum, hpg⟩).ops ++
                posOps img (resolvePos pos).x (resolvePos pos).y w hgt
                  (doc.get ⟨(resolvePos pos).pageNum, hpg⟩).rect.width
                  (doc.get ⟨(resolvePos pos).pageNum, hpg⟩).rect.height cert from rfl,
              opImages_append, opImages_posOps] at hq2
          rcases List.mem_append.mp hq2 with hq2 | hq2
          · exact Or.inl ((mem_docImages q doc).mpr
              ⟨_, List.get_mem doc _ hpg, hq2⟩)
          · exact Or.inr (List.mem_singleton.mp hq2)
    case h_2 =>
      exact absurd h (by simp)
  case isFalse hpg =>
    exact absurd h (by simp)

theorem foldlM_ok_elim (img : QRImage) (cert : Option String) :
    ∀ (ps : List PosInput) (doc doc2 : Document),
      List.foldlM (stepPos img cert) doc ps = .ok doc2 →
      doc2.length = doc.length
      ∧ (∀ i (h1 : i < doc.length) (h2 : i < doc2.length),
          (doc2.get ⟨i, h2⟩).rect = (doc.get ⟨i, h1⟩).rect)
      ∧ ∀ q ∈ docImages doc2, q ∈ docImages doc ∨ q = img := by
  intro ps
  induction ps with
  | nil =>
    intro doc doc2 h
    have h3 : (Except.ok doc : Except String Document) = .ok doc2 := h
    injection h3 with h3
    subst h3
    exact ⟨rfl, fun i h1 h2 => rfl, fun q hq => Or.inl hq⟩
  | cons p rest ih =>
    intro doc doc2 h
    rw [List.foldlM_cons] at h
    cases hstep : stepPos img cert doc p with
    | error e =>
      rw [hstep] at h
      have h3 : (Except.error e : Except String Document) = .ok doc2 := h
      cases h3
    | ok mid =>
      rw [hstep] at h
      have h2 : List.foldlM (stepPos img cert) mid rest = .ok doc2 := h
      obtain ⟨l1, r1, i1⟩ := stepPos_ok_elim img cert doc mid p hstep
      obtain ⟨l2, r2, i2⟩ := ih mid doc2 h2
      refine ⟨l2.trans l1, ?_, ?_⟩
      · intro i hd1 hd2
        have hm : i < mid.length := l1.symm ▸ hd1
        exact (r2 i hm hd2).trans (r1 i hd1 hm)
      · intro q hq
        rcases i2 q hq with hq2 | hq2
        · exact i1 q hq2
        · exact Or.inr hq2

theorem foldlM_ok_of_valid (img : QRImage) (cert : Option String) :
    ∀ (ps : List PosInput) (doc : Document),
      (∀ pos ∈ ps, (resolvePos pos).pageNum < doc.length
        ∧ (resolvePos pos).width.isSome ∧ (resolvePos pos).height.isSome) →
      ∃ doc2, List.foldlM (stepPos img cert) doc ps = .ok doc2 := by
  intro ps
  induction ps with
  | nil =>
    intro doc _
    exact ⟨doc, rfl⟩
  | cons p rest ih =>
    intro doc hval
    obtain ⟨hpg, hw, hh⟩ := hval p (List.mem_cons_self _ _)
    rcases Option.isSome_iff_exists.mp hw with ⟨w, hw⟩
    rcases Option.isSome_iff_exists.mp hh with ⟨hgt, hh⟩
    have hstep := stepPos_eq_of_valid img cert doc p w hgt hpg hw hh
    obtain ⟨lmid, _, _⟩ := stepPos_ok_elim img cert doc _ p hstep
    obtain ⟨doc2, h2⟩ := ih _ (by
      intro pos hpos
      obtain ⟨a, b, c⟩ := hval pos (List.mem_cons_of_mem _ hpos)
      exact ⟨lmid ▸ a, b, c⟩)
    refine ⟨doc2, ?_⟩
    rw [List.foldlM_cons, hstep]
    exact h2

/-- C7: a successful run of add_qr_to_pdf never changes the page count and
every page keeps its original rectangle, hence its width and height. -/
theorem compose_preserves_page_count_and_sizes (doc : Document)
    (ps : List PosInput) (qrData : String) (cert : Option String)
    (doc2 : Document) (h : addQrToPdf doc ps qrData cert = .ok doc2) :
    doc2.length = doc.length
    ∧ ∀ i (h1 : i < doc.length) (h2 : i < doc2.length),
        (doc2.get ⟨i, h2⟩).rect.width = (doc.get ⟨i, h1⟩).rect.width
        ∧ (doc2.get ⟨i, h2⟩).rect.height = (doc.get ⟨i, h1⟩).rect.height := by
  obtain ⟨l, r, _⟩ := foldlM_ok_elim (makeQrImage qrData) cert ps doc doc2 h
  refine ⟨l, ?_⟩
  intro i h1 h2
  rw [r i h1 h2]
  exact ⟨rfl, rfl⟩

/-- C8: the QR bitmap is a function of the payload alone, generated with the
highest error-correction tier (ERROR_CORRECT_H) and a one-module border, and
a successful run inserts no image other than that single bitmap: every image
on the output document was already on the input or is makeQrImage qrData. -/
theorem qr_image_highest_ec_reused (doc : Document) (ps : List PosInput)
    (qrData : String) (cert : Option String) (doc2 : Document)
    (h : addQrToPdf doc ps qrData cert = .ok doc2) :
    (makeQrImage qrData).errorCorrection = .H
    ∧ (makeQrImage qrData).border = 1
    ∧ ∀ q ∈ docImages doc2, q ∈ docImages doc ∨ q = makeQrImage qrData :=
  ⟨rfl, rfl, (foldlM_ok_elim (makeQrImage qrData) cert ps doc doc2 h).2.2⟩

/-- C6: the detect-and-add-qr path answers 404 with the structured body
interpolating the marker when the document has zero occurrences, and
otherwise feeds the located positions to the compositor, which succeeds, and
returns the modified PDF. -/
theorem detect_and_add_404_or_pdf (doc : Document) (marker qrData : String)
    (cert : Option String) (filename : String) :
    (totalOccurrences doc marker = 0 →
      detectAndAddQr doc marker qrData cert filename
        = .jsonError 404 ("No marker \x27" ++ marker ++ "\x27 found in the document"))
    ∧ (totalOccurrences doc marker ≠ 0 →
      ∃ doc2, addQrToPdf doc ((findMarkerPositions doc marker).map .obj) qrData cert
          = .ok doc2
        ∧ detectAndAddQr doc marker qrData cert filename
          = .pdf doc2 ("signed_" ++ filename)) := by
  have hlen : (findMarkerPositions doc marker).length = totalOccurrences doc marker :=
    findMarkerAux_length marker 0 doc
  constructor
  · intro h0
    have hnil := (locator_zero_occurrences_empty doc marker h0).1
    unfold detectAndAddQr
    rw [hnil]
    rfl
  · intro hne
    have hval : ∀ pos ∈ (findMarkerPositions doc marker).map PosInput.obj,
        (resolvePos pos).pageNum < doc.length
        ∧ (resolvePos pos).width.isSome ∧ (resolvePos pos).height.isSome := by
      intro pos hpos
      rcases List.mem_map.mp hpos with ⟨p, hp, rfl⟩
      obtain ⟨_, hpage, hw, hh⟩ := findMarkerAux_mem marker 0 doc p hp
      exact ⟨by show p.page < doc.length; omega, hw, hh⟩
    obtain ⟨doc2, hok⟩ := foldlM_ok_of_valid (makeQrImage qrData) cert
      ((findMarkerPositions doc marker).map PosInput.obj) doc hval
    have hne3 : findMarkerPositions doc marker ≠ [] := by
      intro hcon
      apply hne
      rw [← hlen, hcon]
      rfl
    refine ⟨doc2, hok, ?_⟩
    cases hcase : findMarkerPositions doc marker with
    | nil => exact absurd hcase hne3
    | cons a l =>
      rw [hcase] at hok
      unfold detectAndAddQr
      rw [hcase]
      show (match List.foldlM (stepPos (makeQrImage qrData) cert) doc
          (List.map PosInput.obj (a :: l)) with
        | .ok d => Response.pdf d ("signed_" ++ filename)
        | .error e => Response.httpError 500 ("Error processing PDF: " ++ e)) = _
      rw [hok]

theorem detect_and_add_404_or_pdf_witness :
    detectAndAddQr sampleDoc "[[OTHER]]" "qr" none "doc.pdf"
        = .jsonError 404 ("No marker \x27" ++ "[[OTHER]]" ++ "\x27 found in the document")
    ∧ ∃ doc2, addQrToPdf sampleDoc
          ((findMarkerPositions sampleDoc "[[SIGN_HERE]]").map .obj) "qr" none = .ok doc2
        ∧ detectAndAddQr sampleDoc "[[SIGN_HERE]]" "qr" none "doc.pdf"
          = .pdf doc2 ("signed_" ++ "doc.pdf") :=
  ⟨(detect_and_add_404_or_pdf sampleDoc "[[OTHER]]" "qr" none "doc.pdf").1 (by decide),
   (detect_and_add_404_or_pdf sampleDoc "[[SIGN_HERE]]" "qr" none "doc.pdf").2 (by decide)⟩

/-! ## Witnesses and counterexamples that evaluate the embedding on concrete
rational inputs. The arithmetic of Rat is irreducible by default, which keeps
kernel evaluation out of reach of decide; it is made semireducible locally,
for these closed concrete statements only. -/

section ConcreteEvaluation

attribute [local semireducible] Rat.sub Rat.add Rat.mul Rat.inv

theorem locator_returns_all_occurrences_in_order_witness :
    ({ x := 50, y := 50, page := 0, width := some 100, height := some 20 } : SignPosition).page
        < sampleDoc.length
    ∧ (findMarkerPositions sampleDoc "[[SIGN_HERE]]").filter (fun p => p.page == 1)
        = ((sampleDoc.get ⟨1, by decide⟩).searchFor "[[SIGN_HERE]]").map (fun rect =>
            { x := rect.x0, y := rect.y0, page := 1,
              width := some rect.width, height := some rect.height }) :=
  ⟨(locator_returns_all_occurrences_in_order sampleDoc "[[SIGN_HERE]]").2.1 _ (by decide),
   (locator_returns_all_occurrences_in_order sampleDoc "[[SIGN_HERE]]").2.2.2 1 (by decide)⟩

/-- C3 counterexample: with no certificate id (certTruthy none = false), the
code still clamps with the 40-unit text margin: at y = 200 on a 200-unit-tall
page the code places the box top at 100, while clamping the box only into
[10, pageHeight-10] would place it at 130. -/
theorem cert_margin_counterexample :
    certTruthy none = false
    ∧ adjustedY 200 200 = 100
    ∧ specAdjustedYNoCert 200 200 = 130
    ∧ adjustedY 200 200 ≠ specAdjustedYNoCert 200 200 :=
  ⟨rfl, by decide, by decide, by decide⟩

/-- C4 counterexample: at the clamped placement (60, 20) the source draws the
shadow rectangle (58, 18, 124, 84) as the second operation of the position,
which extends 4 units beyond the QR box on the right and bottom, so it is not
the rectangle 2 units larger on each side, (58, 18, 122, 82). -/
theorem shadow_geometry_counterexample :
    (posOps (makeQrImage "d") 50 50 100 100 500 500 none)[1]?
        = some (.drawRect (shadowRect 60 20) gray gray)
    ∧ shadowRect 60 20 = ⟨58, 18, 124, 84⟩
    ∧ specShadowRect 60 20 = ⟨58, 18, 122, 82⟩
    ∧ shadowRect 60 20 ≠ specShadowRect 60 20 :=
  ⟨by decide, by decide, by decide, by decide⟩

theorem compose_preserves_page_count_and_sizes_witness :
    wDoc2.length = sampleDoc.length
    ∧ (wDoc2.get ⟨0, by decide⟩).rect.width = (sampleDoc.get ⟨0, by decide⟩).rect.width
    ∧ (wDoc2.get ⟨0, by decide⟩).rect.height = (sampleDoc.get ⟨0, by decide⟩).rect.height :=
  ⟨(compose_preserves_page_count_and_sizes sampleDoc wPositions "payload" none wDoc2 rfl).1,
   (compose_preserves_page_count_and_sizes sampleDoc wPositions "payload" none wDoc2 rfl).2
      0 (by decide) (by decide)⟩

theorem qr_image_highest_ec_reused_witness :
    (makeQrImage "payload").errorCorrection = .H
    ∧ (makeQrImage "payload").border = 1
    ∧ (makeQrImage "payload" ∈ docImages sampleDoc
        ∨ makeQrImage "payload" = makeQrImage "payload") :=
  ⟨(qr_image_highest_ec_reused sampleDoc wPositions "payload" none wDoc2 rfl).1,
   (qr_image_highest_ec_reused sampleDoc wPositions "payload" none wDoc2 rfl).2.1,
   (qr_image_highest_ec_reused sampleDoc wPositions "payload" none wDoc2 rfl).2.2
      (makeQrImage "payload") (by decide)⟩

end ConcreteEvaluation

end FastapiQr
